import Mathlib

/-!
Shallow embedding of `src/rpc/protocol/payloads.rs` from the
`obkv-table-client-rs` repository: the request/response payload codec layer of
the OBKV binary RPC client. Pure Rust functions become Lean functions; Rust
machine integers become `Int`/`Nat` with explicit two's-complement
reinterpretation where the code reinterprets; fallible code returns
`Except`/`Option`; a Rust panic is modelled as `Option.none`.

Wire primitives (`serde_obkv::util`), the common payload header
(`BasePayLoad`/`ObPayload`), the scalar `Value` codec, the negotiated version
(`ob_vsn_major`) and the tablet-operation types (`lsop`) are code of the same
repository that is not part of the verified source file; each is modelled
from the spec and marked `Modelled from the spec:` in its doc comment.
-/

namespace Payloads

/-- Modelled from the spec: strings cross the wire as length-prefixed byte
sequences (§2 wire primitives); a string is represented by its byte sequence. -/
abbrev ObString := List Nat

/-- Modelled from the spec: the external scalar value codec is consumed as an
opaque encodable unit with two encodings, the default one and an alternate
"tablet" encoding (§6); a value is represented by its two encoded byte
sequences, so that for each encoding the reported length and the appended
bytes agree by the external byte-exact contract. -/
structure Value where
  objBytes : List Nat
  tableObjBytes : List Nat
deriving DecidableEq

/-- Modelled from the spec: `Value::default()`, an opaque default scalar. -/
def Value.defaultValue : Value := ⟨[], []⟩

/-- Embeds `Value::len` — byte length of the default encoding. -/
def Value.len (v : Value) : Nat := v.objBytes.length

/-- Embeds `Value::table_obj_len` — byte length of the tablet encoding. -/
def Value.table_obj_len (v : Value) : Nat := v.tableObjBytes.length

/-- Embeds `Value::encode` — bytes appended by the default encoding. -/
def Value.encode (v : Value) : List Nat := v.objBytes

/-- Embeds `Value::table_obj_encode` — bytes appended by the tablet encoding. -/
def Value.table_obj_encode (v : Value) : List Nat := v.tableObjBytes

/-- Two's-complement reinterpretation of an `i64` as a `u64`
(`v as u64` in Rust). -/
def toU64 (v : Int) : Nat := (v % (18446744073709551616 : Int)).toNat

/-- Reinterpretation of a `u64` as an `i64` (`ret as i64` in Rust). -/
def toI64 (u : Nat) : Int :=
  if u % 18446744073709551616 < 9223372036854775808 then
    ((u % 18446744073709551616 : Nat) : Int)
  else ((u % 18446744073709551616 : Nat) : Int) - 18446744073709551616

/-- Reinterpretation of a `u32` as an `i32`. -/
def toI32 (u : Nat) : Int :=
  if u % 4294967296 < 2147483648 then ((u % 4294967296 : Nat) : Int)
  else ((u % 4294967296 : Nat) : Int) - 4294967296

/-- Reinterpretation of a byte as an `i8` (`get_i8` in Rust). -/
def toI8 (b : Nat) : Int :=
  if b % 256 < 128 then ((b % 256 : Nat) : Int)
  else ((b % 256 : Nat) : Int) - 256

/-- Modelled from the spec: the external variable-length integer scheme
(§2, §6 wire primitives): seven data bits per byte, continuation bit `0x80`,
least-significant group first, at most ten bytes for a 64-bit value. The
first argument is structural fuel; ten bytes always suffice for `u < 2^64`. -/
def vi64Bytes : Nat → Nat → List Nat
  | 0, _ => []
  | fuel + 1, u => if u < 128 then [u] else (u % 128 + 128) :: vi64Bytes fuel (u / 128)

/-- Modelled from the spec: `util::encode_vi64` — varint encoding of an `i64`
reinterpreted as a `u64`. -/
def encode_vi64 (v : Int) : List Nat := vi64Bytes 10 (toU64 v)

/-- Byte count of the varint encoding of a `u64`, by thresholds. -/
def vi64Len (u : Nat) : Nat :=
  if u < 128 then 1
  else if u < 16384 then 2
  else if u < 2097152 then 3
  else if u < 268435456 then 4
  else if u < 34359738368 then 5
  else if u < 4398046511104 then 6
  else if u < 562949953421312 then 7
  else if u < 72057594037927936 then 8
  else if u < 9223372036854775808 then 9
  else 10

/-- Modelled from the spec: `util::encoded_length_vi64` — the exact byte
count that `encode_vi64` appends, computed by thresholds without encoding. -/
def encoded_length_vi64 (v : Int) : Nat := vi64Len (toU64 v)

/-- Reference recursion for the varint byte count. -/
def recLen (u : Nat) : Nat :=
  if h : u < 128 then 1 else 1 + recLen (u / 128)
decreasing_by exact Nat.div_lt_self (by omega) (by omega)

theorem recLen_base {u : Nat} (h : u < 128) : recLen u = 1 := by
  rw [recLen]; simp [h]

theorem recLen_step {u : Nat} (h : 128 ≤ u) : recLen u = 1 + recLen (u / 128) := by
  rw [recLen]; simp [Nat.not_lt.2 h]

theorem recLen_of_bounds : ∀ (k u : Nat), 128 ^ k ≤ u → u < 128 ^ (k + 1) →
    recLen u = k + 1 := by
  intro k
  induction k with
  | zero =>
    intro u _ hu
    exact recLen_base (by simpa using hu)
  | succ k ih =>
    intro u hlo hhi
    have h128 : 128 ≤ u := le_trans (Nat.le_self_pow (by omega) 128) hlo
    rw [recLen_step h128]
    have hdlo : 128 ^ k ≤ u / 128 := by
      rw [Nat.le_div_iff_mul_le (by omega)]
      calc 128 ^ k * 128 = 128 ^ (k + 1) := by ring
        _ ≤ u := hlo
    have hdhi : u / 128 < 128 ^ (k + 1) := by
      rw [Nat.div_lt_iff_lt_mul (by omega)]
      calc u < 128 ^ (k + 2) := hhi
        _ = 128 ^ (k + 1) * 128 := by ring
    rw [ih (u / 128) hdlo hdhi]
    omega

theorem recLen_eq_vi64Len (u : Nat) (h : u < 18446744073709551616) :
    recLen u = vi64Len u := by
  unfold vi64Len
  split_ifs with h1 h2 h3 h4 h5 h6 h7 h8 h9
  · exact recLen_base h1
  · have := recLen_of_bounds 1 u (by norm_num; omega) (by norm_num; omega); omega
  · have := recLen_of_bounds 2 u (by norm_num; omega) (by norm_num; omega); omega
  · have := recLen_of_bounds 3 u (by norm_num; omega) (by norm_num; omega); omega
  · have := recLen_of_bounds 4 u (by norm_num; omega) (by norm_num; omega); omega
  · have := recLen_of_bounds 5 u (by norm_num; omega) (by norm_num; omega); omega
  · have := recLen_of_bounds 6 u (by norm_num; omega) (by norm_num; omega); omega
  · have := recLen_of_bounds 7 u (by norm_num; omega) (by norm_num; omega); omega
  · have := recLen_of_bounds 8 u (by norm_num; omega) (by norm_num; omega); omega
  · have := recLen_of_bounds 9 u (by norm_num; omega) (by norm_num; omega); omega

theorem recLen_pos (u : Nat) : 1 ≤ recLen u := by
  rw [recLen]; split <;> omega

theorem vi64Bytes_length : ∀ (fuel u : Nat), recLen u ≤ fuel →
    (vi64Bytes fuel u).length = recLen u := by
  intro fuel
  induction fuel with
  | zero => intro u h; have := recLen_pos u; omega
  | succ fuel ih =>
    intro u h
    by_cases hu : u < 128
    · simp [vi64Bytes, hu, recLen_base hu]
    · have h128 : 128 ≤ u := by omega
      have hstep := recLen_step h128
      simp only [vi64Bytes, if_neg hu, List.length_cons]
      rw [ih (u / 128) (by omega)]
      omega

theorem toU64_lt (v : Int) : toU64 v < 18446744073709551616 := by
  unfold toU64; omega

theorem length_encode_vi64 (v : Int) :
    (encode_vi64 v).length = encoded_length_vi64 v := by
  unfold encode_vi64 encoded_length_vi64
  have h := toU64_lt v
  rw [vi64Bytes_length 10 (toU64 v)
    (by rw [recLen_eq_vi64Len _ h]; unfold vi64Len; split_ifs <;> omega)]
  exact recLen_eq_vi64Len _ h

/-- Modelled from the spec: `util::encode_vstring` — length-prefixed string. -/
def encode_vstring (s : ObString) : List Nat := encode_vi64 s.length ++ s

/-- Modelled from the spec: `util::encoded_length_vstring`. -/
def encoded_length_vstring (s : ObString) : Nat :=
  encoded_length_vi64 s.length + s.length

/-- Modelled from the spec: `util::encode_bytes_string` — length-prefixed
byte string. -/
def encode_bytes_string (b : List Nat) : List Nat := encode_vi64 b.length ++ b

/-- Modelled from the spec: `util::encoded_length_bytes_string`. -/
def encoded_length_bytes_string (b : List Nat) : Nat :=
  encoded_length_vi64 b.length + b.length

/-- Modelled from the spec: `util::encoded_length_i8` — always one byte. -/
def encoded_length_i8 (_ : Int) : Nat := 1

/-- Embeds `put_i8` — append one byte (two's-complement of the `i8`). -/
def put_i8 (v : Int) : List Nat := [(v % 256).toNat]

/-- Embeds `put_i64` — append eight big-endian bytes. -/
def put_i64 (v : Int) : List Nat :=
  let u := toU64 v
  [u / 72057594037927936 % 256, u / 281474976710656 % 256,
   u / 1099511627776 % 256, u / 4294967296 % 256, u / 16777216 % 256,
   u / 65536 % 256, u / 256 % 256, u % 256]

theorem length_encode_vstring (s : ObString) :
    (encode_vstring s).length = encoded_length_vstring s := by
  simp [encode_vstring, encoded_length_vstring, length_encode_vi64]

theorem length_encode_bytes_string (b : List Nat) :
    (encode_bytes_string b).length = encoded_length_bytes_string b := by
  simp [encode_bytes_string, encoded_length_bytes_string, length_encode_vi64]

theorem length_put_i8 (v : Int) : (put_i8 v).length = 1 := rfl

theorem length_put_i64 (v : Int) : (put_i64 v).length = 8 := rfl

/-- Modelled from the spec: `location::OB_INVALID_ID`, the sentinel for an
unresolved table or partition id (§3 "sentinel = unresolved"). -/
def OB_INVALID_ID : Int := -1

/-- Modelled from the spec: `BasePayLoad`, the common prefix of every payload
(§3 Header: version, channel id, timeout, feature flag). -/
structure BasePayLoad where
  version : Int
  channel_id : Int
  timeout : Int
  flag : Nat
deriving DecidableEq

/-- Modelled from the spec: `BasePayLoad::dummy()` — a default header. -/
def BasePayLoad.dummy : BasePayLoad := ⟨1, 0, 0, 7⟩

/-- Modelled from the spec: `BasePayLoad::new()` — a fresh header. -/
def BasePayLoad.new : BasePayLoad := ⟨1, 0, 0, 7⟩

/-- Modelled from the spec (§4.1): the byte count of the payload header
written by `encode_header`: the version and the body length, each a varint.
`ObPayload::len()` is this header length plus `content_len()`. -/
def header_len (version : Int) (contentLen : Nat) : Nat :=
  encoded_length_vi64 version + encoded_length_vi64 contentLen

/-- Modelled from the spec (§4.1): `ObPayload::encode_header` — writes the
version and the body length as varints before the body. -/
def encode_header (version : Int) (contentLen : Nat) : List Nat :=
  encode_vi64 version ++ encode_vi64 contentLen

theorem length_encode_header (v : Int) (c : Nat) :
    (encode_header v c).length = header_len v c := by
  simp [encode_header, header_len, length_encode_vi64]

/-- Embeds `ObjEncodeType` — selector between the two scalar encodings. -/
inductive ObjEncodeType
  | Obj
  | TableObj
deriving DecidableEq

/-- Embeds `ObRowKey` — ordered key values, optional parallel column names, and the
encode-mode selector. -/
structure ObRowKey where
  column_names : List ObString
  keys : List Value
  obj_type : ObjEncodeType
deriving DecidableEq

/-- Embeds `ObRowKey::new`. -/
def ObRowKey.new (keys : List Value) : ObRowKey := ⟨[], keys, .Obj⟩

/-- Embeds `ObRowKey::content_len`. -/
def ObRowKey.content_len (rk : ObRowKey) : Nat :=
  encoded_length_vi64 rk.keys.length +
    match rk.obj_type with
    | .Obj => (rk.keys.map Value.len).sum
    | .TableObj => (rk.keys.map Value.table_obj_len).sum

/-- Embeds `ObRowKey::encode` — the bytes appended to the buffer. -/
def ObRowKey.encode (rk : ObRowKey) : List Nat :=
  encode_vi64 rk.keys.length ++
    match rk.obj_type with
    | .Obj => (rk.keys.map Value.encode).flatten
    | .TableObj => (rk.keys.map Value.table_obj_encode).flatten

theorem length_flatten_encode_values (ks : List Value) :
    (ks.map Value.encode).flatten.length = (ks.map Value.len).sum := by
  induction ks with
  | nil => rfl
  | cons v t ih =>
    simp only [List.map_cons, List.flatten_cons, List.length_append,
      List.sum_cons, ih, Value.encode, Value.len]

theorem length_flatten_table_obj_encode_values (ks : List Value) :
    (ks.map Value.table_obj_encode).flatten.length =
      (ks.map Value.table_obj_len).sum := by
  induction ks with
  | nil => rfl
  | cons v t ih =>
    simp only [List.map_cons, List.flatten_cons, List.length_append,
      List.sum_cons, ih, Value.table_obj_encode, Value.table_obj_len]

theorem length_encode_row_key (rk : ObRowKey) :
    rk.encode.length = rk.content_len := by
  cases rk with
  | mk cns ks ot =>
    cases ot <;>
      simp only [ObRowKey.encode, ObRowKey.content_len, List.length_append,
        length_encode_vi64, length_flatten_encode_values,
        length_flatten_table_obj_encode_values]

/-- Property map of an entity: the source's `HashMap<String, Value>` is
modelled as an association list with distinct keys maintained by
upsert-by-name, which is all the code observes of it (size, membership,
lookup, and one consistent iteration order shared by `content_len` and
`encode`). -/
abbrev Props := List (ObString × Value)

/-- Embeds `HashMap::insert` — overwrite the value of an existing name in place,
otherwise append the new pair. -/
def Props.insertAttr : Props → ObString → Value → Props
  | [], k, v => [(k, v)]
  | (k', v') :: rest, k, v =>
    if k' = k then (k, v) :: rest else (k', v') :: Props.insertAttr rest k v

/-- Embeds `HashMap::contains_key`. -/
def Props.containsKey (m : Props) (k : ObString) : Bool :=
  m.any fun p => decide (p.1 = k)

/-- Embeds `HashMap::get`. -/
def Props.lookup : Props → ObString → Option Value
  | [], _ => none
  | (k', v') :: rest, k => if k' = k then some v' else Props.lookup rest k

/-- Embeds `ObTableEntity` — a row key plus a name-to-value property map. -/
structure ObTableEntity where
  base : BasePayLoad
  row_key : ObRowKey
  properties : Props
deriving DecidableEq

/-- Embeds `ObTableEntity::new`. -/
def ObTableEntity.new (row_keys : List Value) : ObTableEntity :=
  ⟨BasePayLoad.dummy, ObRowKey.new row_keys, []⟩

/-- Embeds `ObTableEntity::add_attr` (the returned previous value is dropped). -/
def ObTableEntity.add_attr (e : ObTableEntity) (name : ObString) (v : Value) :
    ObTableEntity :=
  { e with properties := e.properties.insertAttr name v }

/-- Embeds `ObTableEntity::set_row_key`. -/
def ObTableEntity.set_row_key (e : ObTableEntity) (keys : List Value) :
    ObTableEntity :=
  { e with row_key := { e.row_key with keys := keys } }

/-- Embeds `ObTableEntity::set_row_key_names`. -/
def ObTableEntity.set_row_key_names (e : ObTableEntity)
    (column_names : List ObString) : ObTableEntity :=
  { e with row_key := { e.row_key with column_names := column_names } }

/-- Embeds `ObTableEntity::properties_names`. -/
def ObTableEntity.properties_names (e : ObTableEntity) : List ObString :=
  e.properties.map Prod.fst

/-- Embeds `ObTableEntity::properties_values`. -/
def ObTableEntity.properties_values (e : ObTableEntity) : List Value :=
  e.properties.map Prod.snd

/-- Embeds `ObTableEntity::content_len` (`ObPayload` impl). -/
def ObTableEntity.content_len (e : ObTableEntity) : Nat :=
  e.row_key.content_len + encoded_length_vi64 e.properties.length +
    (e.properties.map fun p => encoded_length_vstring p.1 + p.2.len).sum

/-- Embeds `ObPayload::len` for `ObTableEntity`: header length plus body length. -/
def ObTableEntity.len (e : ObTableEntity) : Nat :=
  header_len e.base.version e.content_len + e.content_len

/-- Embeds `ObTableEntity::encode` (`ProtoEncoder` impl) — the appended bytes. -/
def ObTableEntity.encode (e : ObTableEntity) : List Nat :=
  encode_header e.base.version e.content_len ++ e.row_key.encode ++
    encode_vi64 e.properties.length ++
    (e.properties.map fun p => encode_vstring p.1 ++ p.2.encode).flatten

theorem length_flatten_encode_props (ps : Props) :
    (ps.map fun p => encode_vstring p.1 ++ p.2.encode).flatten.length =
      (ps.map fun p => encoded_length_vstring p.1 + p.2.len).sum := by
  induction ps with
  | nil => rfl
  | cons p t ih =>
    simp only [List.map_cons, List.flatten_cons, List.length_append,
      List.sum_cons, ih, length_encode_vstring]
    rfl

theorem length_encode_entity (e : ObTableEntity) :
    e.encode.length = e.len := by
  simp only [ObTableEntity.encode, ObTableEntity.len, ObTableEntity.content_len,
    List.length_append, length_encode_header, length_encode_vi64,
    length_encode_row_key, length_flatten_encode_props]
  omega

/-- Embeds `ObTableOperationType` — the closed operation-type tag set, with the
in-memory-only sentinel `Invalid`. -/
inductive ObTableOperationType
  | Get
  | Insert
  | Del
  | Update
  | InsertOrUpdate
  | Replace
  | Increment
  | Append
  | Scan
  | TTL
  | CheckAndInsertUp
  | Invalid
deriving DecidableEq

/-- The integer wire tag of each variant (`self.op_type as i8` in Rust). -/
def ObTableOperationType.tag : ObTableOperationType → Int
  | .Get => 0
  | .Insert => 1
  | .Del => 2
  | .Update => 3
  | .InsertOrUpdate => 4
  | .Replace => 5
  | .Increment => 6
  | .Append => 7
  | .Scan => 8
  | .TTL => 9
  | .CheckAndInsertUp => 10
  | .Invalid => 11

/-- Embeds `ObTableOperationType::from_i8` — the fallible tag-to-variant mapping;
the `io::Error` of kind `InvalidData` is modelled as `Except.error` carrying
the formatted message. -/
def ObTableOperationType.from_i8 (i : Int) : Except String ObTableOperationType :=
  if i = 0 then .ok .Get
  else if i = 1 then .ok .Insert
  else if i = 2 then .ok .Del
  else if i = 3 then .ok .Update
  else if i = 4 then .ok .InsertOrUpdate
  else if i = 5 then .ok .Replace
  else if i = 6 then .ok .Increment
  else if i = 7 then .ok .Append
  else if i = 8 then .ok .Scan
  else if i = 9 then .ok .TTL
  else if i = 10 then .ok .CheckAndInsertUp
  else .error ("Invalid operation type: " ++ toString i)

/-- The eleven wire operation types in tag order (tags 0 through 10). -/
def wireOperationTypes : List ObTableOperationType :=
  [.Get, .Insert, .Del, .Update, .InsertOrUpdate, .Replace, .Increment,
   .Append, .Scan, .TTL, .CheckAndInsertUp]

/-- Embeds `ObTableOperation` — an operation-type tag plus an entity. -/
structure ObTableOperation where
  base : BasePayLoad
  op_type : ObTableOperationType
  entity : ObTableEntity
deriving DecidableEq

/-- Inner loop of `ObTableOperation::new`: for each column name take
`props[i]` (a panic — modelled as `none` — when the index is out of bounds)
or `Value::default()` when no properties were supplied, and upsert it. -/
def addAttrsAux (e : ObTableEntity) :
    List ObString → Option (List Value) → Nat → Option ObTableEntity
  | [], _, _ => some e
  | c :: cs, props, i =>
    match (match props with
           | some ps => ps[i]?
           | none => some Value.defaultValue) with
    | none => none
    | some v => addAttrsAux (e.add_attr c v) cs props (i + 1)

/-- Embeds `ObTableOperation::new` — builds the entity from the row keys and the
optional column/property lists; `none` models the panic of the out-of-bounds
indexing `props[i]`. -/
def ObTableOperation.new (operation_type : ObTableOperationType)
    (row_keys : List Value) (columns : Option (List ObString))
    (properties : Option (List Value)) : Option ObTableOperation :=
  let entity := ObTableEntity.new row_keys
  (match columns with
   | some cols => addAttrsAux entity cols properties 0
   | none => some entity).map
    fun e => ⟨BasePayLoad.dummy, operation_type, e⟩

/-- Embeds `ObTableOperation::get_type`. -/
def ObTableOperation.get_type (op : ObTableOperation) : ObTableOperationType :=
  op.op_type

/-- Embeds `ObTableOperation::get_table_entity`. -/
def ObTableOperation.get_table_entity (op : ObTableOperation) : ObTableEntity :=
  op.entity

/-- Embeds `ObTableOperation::set_row_key_names`. -/
def ObTableOperation.set_row_key_names (op : ObTableOperation)
    (row_key_names : List ObString) : ObTableOperation :=
  { op with entity := op.entity.set_row_key_names row_key_names }

/-- Embeds `ObTableOperation::content_len`: one tag byte plus the entity's full
`len()` (header included, as in the source). -/
def ObTableOperation.content_len (op : ObTableOperation) : Nat :=
  1 + op.entity.len

/-- Embeds `ObPayload::len` for `ObTableOperation`. -/
def ObTableOperation.len (op : ObTableOperation) : Nat :=
  header_len op.base.version op.content_len + op.content_len

/-- Embeds `ObTableOperation::encode` — header, tag byte, entity. -/
def ObTableOperation.encode (op : ObTableOperation) : List Nat :=
  encode_header op.base.version op.content_len ++ put_i8 op.op_type.tag ++
    op.entity.encode

theorem length_encode_operation (op : ObTableOperation) :
    op.encode.length = op.len := by
  simp only [ObTableOperation.encode, ObTableOperation.len,
    ObTableOperation.content_len, List.length_append, length_encode_header,
    length_put_i8, length_encode_entity]
  omega

/-- Embeds `ObTableEntityType`. -/
inductive ObTableEntityType
  | Dynamic
  | KV
  | HKV
deriving DecidableEq

/-- Embeds `self.entity_type as i8`. -/
def ObTableEntityType.toI8Tag : ObTableEntityType → Int
  | .Dynamic => 0
  | .KV => 1
  | .HKV => 2

/-- Embeds `ObTableConsistencyLevel`. -/
inductive ObTableConsistencyLevel
  | Strong
  | Eventual
deriving DecidableEq

/-- Embeds `self.consistency_level as i8`. -/
def ObTableConsistencyLevel.toI8Tag : ObTableConsistencyLevel → Int
  | .Strong => 0
  | .Eventual => 1

/-- Embeds `b as i8` for a Rust bool. -/
def boolToI8 (b : Bool) : Int := if b then 1 else 0

/-- Embeds `ObTableOperationRequest` — the single-operation request payload. -/
structure ObTableOperationRequest where
  base : BasePayLoad
  credential : List Nat
  table_name : ObString
  table_id : Int
  partition_id : Int
  entity_type : ObTableEntityType
  table_operation : ObTableOperation
  consistency_level : ObTableConsistencyLevel
  return_row_key : Bool
  return_affected_entity : Bool
  return_affected_rows : Bool

/-- Embeds `ObTableOperationRequest::content_len`. The negotiated protocol major
version (`ob_vsn_major()`, process-wide state set by the handshake layer)
is passed explicitly as `vsn`; `ob_vsn_major() >= 4` selects a fixed 8-byte
partition id, `< 4` a varint. -/
def ObTableOperationRequest.content_len (vsn : Nat)
    (r : ObTableOperationRequest) : Nat :=
  encoded_length_bytes_string r.credential +
    encoded_length_vstring r.table_name +
    encoded_length_vi64 r.table_id +
    (if 4 ≤ vsn then 8 else encoded_length_vi64 r.partition_id) +
    encoded_length_i8 r.entity_type.toI8Tag +
    encoded_length_i8 r.consistency_level.toI8Tag +
    encoded_length_i8 (boolToI8 r.return_row_key) +
    encoded_length_i8 (boolToI8 r.return_affected_entity) +
    encoded_length_i8 (boolToI8 r.return_affected_rows) +
    r.table_operation.len

/-- Embeds `ObPayload::len` for `ObTableOperationRequest`. -/
def ObTableOperationRequest.len (vsn : Nat) (r : ObTableOperationRequest) : Nat :=
  header_len r.base.version (r.content_len vsn) + r.content_len vsn

/-- Embeds `ObTableOperationRequest::encode` — the appended bytes, in source order:
header, credential, table name, table id, partition id (8-byte fixed when
`ob_vsn_major() >= 4`, varint otherwise), entity type, the operation,
consistency level, the three return flags. -/
def ObTableOperationRequest.encode (vsn : Nat)
    (r : ObTableOperationRequest) : List Nat :=
  encode_header r.base.version (r.content_len vsn) ++
    encode_bytes_string r.credential ++
    encode_vstring r.table_name ++
    encode_vi64 r.table_id ++
    (if 4 ≤ vsn then put_i64 r.partition_id else encode_vi64 r.partition_id) ++
    put_i8 r.entity_type.toI8Tag ++
    r.table_operation.encode ++
    put_i8 r.consistency_level.toI8Tag ++
    put_i8 (boolToI8 r.return_row_key) ++
    put_i8 (boolToI8 r.return_affected_entity) ++
    put_i8 (boolToI8 r.return_affected_rows)

theorem length_encode_operation_request (vsn : Nat)
    (r : ObTableOperationRequest) :
    (r.encode vsn).length = r.len vsn := by
  simp only [ObTableOperationRequest.encode, ObTableOperationRequest.len,
    ObTableOperationRequest.content_len, List.length_append,
    length_encode_header, length_encode_bytes_string, length_encode_vstring,
    length_encode_vi64, length_put_i8, length_encode_operation,
    encoded_length_i8]
  by_cases h : 4 ≤ vsn <;> simp only [h, if_true, if_false, length_put_i64,
    length_encode_vi64, reduceIte] <;> omega

/-- Embeds `RawObTableOperationFlag` — per-operation option for raw operations. -/
structure RawObTableOperationFlag where
  check_and_execute : Bool
  check_exists : Bool
deriving DecidableEq

/-- Embeds `RawObTableOperationFlag::new`. -/
def RawObTableOperationFlag.new : RawObTableOperationFlag := ⟨false, true⟩

/-- Embeds `RawObTableOperation` — the deferred operation tuple: type, optional
row-key column names, row keys, optional property column names, optional
property values, optional filter string, optional option flag. -/
abbrev RawObTableOperation :=
  ObTableOperationType × Option (List ObString) × List Value ×
    Option (List ObString) × Option (List Value) × Option ObString ×
    Option RawObTableOperationFlag

/-- Embeds `ObTableBatchOperation` — the batch accumulator. -/
structure ObTableBatchOperation where
  raw : Bool
  raw_ops : List RawObTableOperation
  table_name : ObString
  table_id : Int
  partition_id : Int
  base : BasePayLoad
  ops : List ObTableOperation
  read_only : Bool
  same_type : Bool
  same_properties_names : Bool
  atomic_op : Bool
  filters : List ObString
  options : List RawObTableOperationFlag

/-- Embeds `ObTableBatchOperation::internal_new` (the capacity hint has no
observable effect and is ignored). -/
def ObTableBatchOperation.internal_new (raw : Bool) (_ops_num : Nat) :
    ObTableBatchOperation :=
  { raw := raw
    raw_ops := []
    table_name := []
    table_id := OB_INVALID_ID
    partition_id := OB_INVALID_ID
    base := BasePayLoad.dummy
    ops := []
    read_only := true
    same_type := true
    same_properties_names := true
    atomic_op := false
    filters := []
    options := [] }

/-- Embeds `ObTableBatchOperation::new`. -/
def ObTableBatchOperation.mkNew : ObTableBatchOperation :=
  ObTableBatchOperation.internal_new false 0

/-- Embeds `ObTableBatchOperation::raw`. -/
def ObTableBatchOperation.mkRaw : ObTableBatchOperation :=
  ObTableBatchOperation.internal_new true 0

/-- Embeds `ObTableBatchOperation::with_ops_num`. -/
def ObTableBatchOperation.with_ops_num (num : Nat) : ObTableBatchOperation :=
  ObTableBatchOperation.internal_new false num

/-- Embeds `ObTableBatchOperation::with_ops_num_raw`. -/
def ObTableBatchOperation.with_ops_num_raw (num : Nat) : ObTableBatchOperation :=
  ObTableBatchOperation.internal_new true num

/-- Embeds `ObTableBatchOperation::ops_len`. -/
def ObTableBatchOperation.ops_len (b : ObTableBatchOperation) : Nat :=
  if b.raw_ops.isEmpty then b.ops.length else b.raw_ops.length

/-- Embeds `ObTableBatchOperation::add_table_op` — pushes a prebuilt operation with
no classifier update and no mode check. -/
def ObTableBatchOperation.add_table_op (b : ObTableBatchOperation)
    (op : ObTableOperation) : ObTableBatchOperation :=
  { b with ops := b.ops ++ [op] }

/-- The `HashSet::insert` of the property-name scan: keep distinct names in
first-insertion order. -/
def insertNameSet (s : List ObString) (x : ObString) : List ObString :=
  if x ∈ s then s else s ++ [x]

/-- The name scan inside `add_op`'s `same_properties_names` update: insert
each column name into the set, stopping right after the first name that is
not a property name of the first operation (`break` in the source). -/
def scanNameSet (props : Props) : List ObString → List ObString → List ObString
  | set, [] => set
  | set, name :: rest =>
    let set' := insertNameSet set name
    if props.containsKey name then scanNameSet props set' rest else set'

/-- Embeds `ObTableBatchOperation::add_op`. In raw mode the tuple is stored
verbatim; in structured mode the three classifier booleans are updated
against the first stored operation, the filter and option side lists are
extended, and the built operation is appended. `none` models the panic of
`ObTableOperation::new` on a too-short property list. -/
def ObTableBatchOperation.add_op (b : ObTableBatchOperation)
    (raw_op : RawObTableOperation) : Option ObTableBatchOperation :=
  if b.raw then some { b with raw_ops := b.raw_ops ++ [raw_op] }
  else
    let (op_type, row_keys_names, row_keys, columns, properties,
         filter_string, option_flag) := raw_op
    let read_only :=
      if b.read_only && decide (op_type ≠ ObTableOperationType.Get) then false
      else b.read_only
    let same_type :=
      if b.same_type && !b.ops.isEmpty then
        match b.ops.head? with
        | some first_op =>
          if first_op.get_type ≠ op_type then false else b.same_type
        | none => b.same_type
      else b.same_type
    let same_properties_names :=
      if b.same_properties_names && !b.ops.isEmpty then
        match b.ops.head? with
        | some first_op =>
          let props := first_op.get_table_entity.properties
          if props.isEmpty && columns.isNone then b.same_properties_names
          else if !props.isEmpty && columns.isSome then
            let names := columns.getD []
            if props.length ≠ names.length then false
            else decide ((scanNameSet props [] names).length = names.length)
          else false
        | none => b.same_properties_names
      else b.same_properties_names
    let filters :=
      match filter_string with
      | some f => b.filters ++ [f]
      | none => b.filters
    let options :=
      match option_flag with
      | some o => b.options ++ [o]
      | none => b.options
    (ObTableOperation.new op_type row_keys columns properties).map
      fun temp_op =>
        let temp_op :=
          match row_keys_names with
          | some rk_names => temp_op.set_row_key_names rk_names
          | none => temp_op
        { b with
            read_only := read_only
            same_type := same_type
            same_properties_names := same_properties_names
            filters := filters
            options := options
            ops := b.ops ++ [temp_op] }

/-- Embeds `ObTableBatchOperation::get`. -/
def ObTableBatchOperation.get (b : ObTableBatchOperation)
    (row_keys : List Value) (columns : List ObString) :
    Option ObTableBatchOperation :=
  b.add_op (.Get, none, row_keys, some columns, none, none, none)

/-- Embeds `ObTableBatchOperation::insert`. -/
def ObTableBatchOperation.insert (b : ObTableBatchOperation)
    (row_keys : List Value) (columns : List ObString)
    (properties : List Value) : Option ObTableBatchOperation :=
  b.add_op (.Insert, none, row_keys, some columns, some properties, none, none)

/-- Embeds `ObTableBatchOperation::delete`. -/
def ObTableBatchOperation.delete (b : ObTableBatchOperation)
    (row_keys : List Value) : Option ObTableBatchOperation :=
  b.add_op (.Del, none, row_keys, none, none, none, none)

/-- Embeds `ObTableBatchOperation::update`. -/
def ObTableBatchOperation.update (b : ObTableBatchOperation)
    (row_keys : List Value) (columns : List ObString)
    (properties : List Value) : Option ObTableBatchOperation :=
  b.add_op (.Update, none, row_keys, some columns, some properties, none, none)

/-- Embeds `ObTableBatchOperation::insert_or_update`. -/
def ObTableBatchOperation.insert_or_update (b : ObTableBatchOperation)
    (row_keys : List Value) (columns : List ObString)
    (properties : List Value) : Option ObTableBatchOperation :=
  b.add_op (.InsertOrUpdate, none, row_keys, some columns, some properties,
    none, none)

/-- Embeds `ObTableBatchOperation::replace`. -/
def ObTableBatchOperation.replace (b : ObTableBatchOperation)
    (row_keys : List Value) (columns : List ObString)
    (properties : List Value) : Option ObTableBatchOperation :=
  b.add_op (.Replace, none, row_keys, some columns, some properties, none, none)

/-- Embeds `ObTableBatchOperation::increment`. -/
def ObTableBatchOperation.increment (b : ObTableBatchOperation)
    (row_keys : List Value) (columns : List ObString)
    (properties : List Value) : Option ObTableBatchOperation :=
  b.add_op (.Increment, none, row_keys, some columns, some properties, none,
    none)

/-- Embeds `ObTableBatchOperation::append`. -/
def ObTableBatchOperation.append (b : ObTableBatchOperation)
    (row_keys : List Value) (columns : List ObString)
    (properties : List Value) : Option ObTableBatchOperation :=
  b.add_op (.Append, none, row_keys, some columns, some properties, none, none)

/-- Embeds `ObTableBatchOperation::check_and_upsert` — the filter argument stands
for the already-encoded filter expression (`filter.encode()` of the external
`FilterEncoder`). -/
def ObTableBatchOperation.check_and_upsert (b : ObTableBatchOperation)
    (row_keys_names : List ObString) (row_keys : List Value)
    (columns : List ObString) (properties : List Value)
    (filter : ObString) (check_exists : Bool) : Option ObTableBatchOperation :=
  b.add_op (.CheckAndInsertUp, some row_keys_names, row_keys, some columns,
    some properties, some filter,
    some { check_and_execute := true, check_exists := check_exists })

/-- Embeds `ObTableBatchOperation::check_and_upsert_if_exists`. -/
def ObTableBatchOperation.check_and_upsert_if_exists (b : ObTableBatchOperation)
    (row_keys_names : List ObString) (row_keys : List Value)
    (columns : List ObString) (properties : List Value)
    (filter : ObString) : Option ObTableBatchOperation :=
  b.check_and_upsert row_keys_names row_keys columns properties filter true

/-- Embeds `ObTableBatchOperation::check_and_upsert_if_not_exists`. -/
def ObTableBatchOperation.check_and_upsert_if_not_exists
    (b : ObTableBatchOperation) (row_keys_names : List ObString)
    (row_keys : List Value) (columns : List ObString)
    (properties : List Value) (filter : ObString) :
    Option ObTableBatchOperation :=
  b.check_and_upsert row_keys_names row_keys columns properties filter false

/-- Embeds `ObTableBatchOperation::content_len` — sizes the structured operation
list and the three trailing classifier bytes; raw tuples contribute nothing. -/
def ObTableBatchOperation.content_len (b : ObTableBatchOperation) : Nat :=
  3 + encoded_length_vi64 b.ops.length + (b.ops.map ObTableOperation.len).sum

/-- Embeds `ObPayload::len` for `ObTableBatchOperation`. -/
def ObTableBatchOperation.len (b : ObTableBatchOperation) : Nat :=
  header_len b.base.version b.content_len + b.content_len

/-- Embeds `ObTableBatchOperation::encode` — header, structured operation count,
each structured operation, then the three classifier booleans as bytes; raw
tuples are never written. -/
def ObTableBatchOperation.encode (b : ObTableBatchOperation) : List Nat :=
  encode_header b.base.version b.content_len ++
    encode_vi64 b.ops.length ++
    (b.ops.map ObTableOperation.encode).flatten ++
    put_i8 (boolToI8 b.read_only) ++
    put_i8 (boolToI8 b.same_type) ++
    put_i8 (boolToI8 b.same_properties_names)

theorem length_flatten_encode_ops (ops : List ObTableOperation) :
    (ops.map ObTableOperation.encode).flatten.length =
      (ops.map ObTableOperation.len).sum := by
  induction ops with
  | nil => rfl
  | cons op t ih =>
    simp only [List.map_cons, List.flatten_cons, List.length_append,
      List.sum_cons, ih, length_encode_operation]

theorem length_encode_batch_operation (b : ObTableBatchOperation) :
    b.encode.length = b.len := by
  simp only [ObTableBatchOperation.encode, ObTableBatchOperation.len,
    ObTableBatchOperation.content_len, List.length_append,
    length_encode_header, length_encode_vi64, length_put_i8,
    length_flatten_encode_ops]
  omega

/-- Modelled from the spec: `query::ObNewRange` — a range over row keys;
`from_keys(start, end)` builds it from its two border keys (§4.5 "builds a
point range [key,key] over the row key"). -/
structure ObNewRange where
  start_keys : List Value
  end_keys : List Value
deriving DecidableEq

/-- Modelled from the spec: `ObNewRange::from_keys`. -/
def ObNewRange.from_keys (s e : List Value) : ObNewRange := ⟨s, e⟩

/-- Modelled from the spec: `lsop::ObTableSingleOpQuery` — the "single-op
query" combining key-column names, ranges, the filter text, and the scalar
encode mode (§4.5). -/
structure ObTableSingleOpQuery where
  key_names : List ObString
  ranges : List ObNewRange
  filter_string : ObString
  obj_type : ObjEncodeType
deriving DecidableEq

/-- Modelled from the spec: `ObTableSingleOpQuery::new`. -/
def ObTableSingleOpQuery.new (key_names : List ObString)
    (ranges : List ObNewRange) : ObTableSingleOpQuery :=
  ⟨key_names, ranges, [], .Obj⟩

/-- Modelled from the spec: `ObTableSingleOpQuery::set_filter_string`. -/
def ObTableSingleOpQuery.set_filter_string (q : ObTableSingleOpQuery)
    (f : ObString) : ObTableSingleOpQuery :=
  { q with filter_string := f }

/-- Modelled from the spec: `ObTableSingleOpQuery::set_obj_type`. -/
def ObTableSingleOpQuery.set_obj_type (q : ObTableSingleOpQuery)
    (t : ObjEncodeType) : ObTableSingleOpQuery :=
  { q with obj_type := t }

/-- Modelled from the spec: `lsop::ObTableSingleOpEntity` — the tablet-level
entity built from row-key names/values and property names/values (§4.5). -/
structure ObTableSingleOpEntity where
  row_key_names : List ObString
  row_key_values : List Value
  property_names : List ObString
  property_values : List Value
deriving DecidableEq

/-- Modelled from the spec: `ObTableSingleOpEntity::new`. -/
def ObTableSingleOpEntity.new (rn : List ObString) (rv : List Value)
    (pn : List ObString) (pv : List Value) : ObTableSingleOpEntity :=
  ⟨rn, rv, pn, pv⟩

/-- Modelled from the spec: `lsop::ObTableSingleOp` — one tablet-level
single operation: type, the "fail if not found" policy flag
(`check_not_exists`), an optional query, and its entities (§4.5). -/
structure ObTableSingleOp where
  op_type : ObTableOperationType
  check_not_exists : Bool
  query : Option ObTableSingleOpQuery
  entities : List ObTableSingleOpEntity
deriving DecidableEq

/-- Modelled from the spec: `ObTableSingleOp::new`. -/
def ObTableSingleOp.new (t : ObTableOperationType) : ObTableSingleOp :=
  ⟨t, false, none, []⟩

/-- Modelled from the spec: `ObTableSingleOp::set_check_not_exists`. -/
def ObTableSingleOp.set_check_not_exists (s : ObTableSingleOp) (b : Bool) :
    ObTableSingleOp :=
  { s with check_not_exists := b }

/-- Modelled from the spec: `ObTableSingleOp::set_query`. -/
def ObTableSingleOp.set_query (s : ObTableSingleOp)
    (q : ObTableSingleOpQuery) : ObTableSingleOp :=
  { s with query := some q }

/-- Modelled from the spec: `ObTableSingleOp::add_entity`. -/
def ObTableSingleOp.add_entity (s : ObTableSingleOp)
    (e : ObTableSingleOpEntity) : ObTableSingleOp :=
  { s with entities := s.entities ++ [e] }

/-- Modelled from the spec: `lsop::ObTableTabletOpFlag` — option bits of a
tablet operation batch; only the same-type bit is observed here. -/
structure ObTableTabletOpFlag where
  is_same_type : Bool
  is_same_properties_names : Bool
deriving DecidableEq

/-- Modelled from the spec: `ObTableTabletOpFlag::default`. -/
def ObTableTabletOpFlag.defaultFlag : ObTableTabletOpFlag := ⟨false, false⟩

/-- Modelled from the spec: `ObTableTabletOpFlag::set_flag_is_same_type`. -/
def ObTableTabletOpFlag.set_flag_is_same_type (f : ObTableTabletOpFlag)
    (b : Bool) : ObTableTabletOpFlag :=
  { f with is_same_type := b }

/-- Modelled from the spec: `lsop::ObTableTabletOp` — a partition-targeted
batch of single operations. -/
structure ObTableTabletOp where
  partition_id : Int
  option_flag : ObTableTabletOpFlag
  single_ops : List ObTableSingleOp
deriving DecidableEq

/-- Modelled from the spec: `ObTableTabletOp::internal_new`. -/
def ObTableTabletOp.internal_new (pid : Int) (flag : ObTableTabletOpFlag)
    (ops : List ObTableSingleOp) : ObTableTabletOp :=
  ⟨pid, flag, ops⟩

/-- Embeds `ObTableBatchOperation::generate_tablet_ops` — drains the structured
operation, filter and option lists in index lockstep (`zip` stops at the
shortest) and emits one tablet single operation per triple, inverting each
option's `check_exists` into the `check_not_exists` policy flag. The source
takes the three lists out of `self` (`mem::take`); only the produced tablet
operation is modelled, the emptying of the drained lists has no bearing on
any claim. -/
def ObTableBatchOperation.generate_tablet_ops (b : ObTableBatchOperation) :
    ObTableTabletOp :=
  let ops := ((b.ops.zip b.filters).zip b.options).map fun tri =>
    let op := tri.1.1
    let filter_string := tri.1.2
    let option := tri.2
    let orig_entity := op.get_table_entity
    let row_key := orig_entity.row_key
    let entity := ObTableSingleOpEntity.new row_key.column_names row_key.keys
      orig_entity.properties_names orig_entity.properties_values
    let range := ObNewRange.from_keys row_key.keys row_key.keys
    let query := ((ObTableSingleOpQuery.new row_key.column_names
      [range]).set_filter_string filter_string).set_obj_type .TableObj
    let single_op := (((ObTableSingleOp.new
      .CheckAndInsertUp).set_check_not_exists
        (!option.check_exists)).set_query query).add_entity entity
    single_op
  ObTableTabletOp.internal_new OB_INVALID_ID
    (ObTableTabletOpFlag.defaultFlag.set_flag_is_same_type true) ops

/-- Embeds `ObTableBatchOperationRequest` — the batch request payload. Its
identity fields and the atomic flag are snapshots taken from the embedded
accumulator at construction time. -/
structure ObTableBatchOperationRequest where
  base : BasePayLoad
  credential : List Nat
  table_name : ObString
  table_id : Int
  partition_id : Int
  entity_type : ObTableEntityType
  batch_operation : ObTableBatchOperation
  consistency_level : ObTableConsistencyLevel
  return_row_key : Bool
  return_affected_entity : Bool
  return_affected_rows : Bool
  atomic_op : Bool

/-- Embeds `ObTableBatchOperationRequest::content_len` (version passed explicitly,
as for the single-operation request). -/
def ObTableBatchOperationRequest.content_len (vsn : Nat)
    (r : ObTableBatchOperationRequest) : Nat :=
  encoded_length_bytes_string r.credential +
    encoded_length_vstring r.table_name +
    encoded_length_vi64 r.table_id +
    (if 4 ≤ vsn then 8 else encoded_length_vi64 r.partition_id) +
    r.batch_operation.len +
    encoded_length_i8 r.entity_type.toI8Tag +
    encoded_length_i8 r.consistency_level.toI8Tag +
    encoded_length_i8 (boolToI8 r.return_row_key) +
    encoded_length_i8 (boolToI8 r.return_affected_entity) +
    encoded_length_i8 (boolToI8 r.return_affected_rows) +
    encoded_length_i8 (boolToI8 r.atomic_op)

/-- Embeds `ObPayload::len` for `ObTableBatchOperationRequest`. -/
def ObTableBatchOperationRequest.len (vsn : Nat)
    (r : ObTableBatchOperationRequest) : Nat :=
  header_len r.base.version (r.content_len vsn) + r.content_len vsn

/-- Embeds `ObTableBatchOperationRequest::encode` — source wire order: header,
credential, table name, table id, entity type, the batch payload,
consistency level, the three return flags, the partition id (after the
flags, version-gated width), and the atomic flag last. -/
def ObTableBatchOperationRequest.encode (vsn : Nat)
    (r : ObTableBatchOperationRequest) : List Nat :=
  encode_header r.base.version (r.content_len vsn) ++
    encode_bytes_string r.credential ++
    encode_vstring r.table_name ++
    encode_vi64 r.table_id ++
    put_i8 r.entity_type.toI8Tag ++
    r.batch_operation.encode ++
    put_i8 r.consistency_level.toI8Tag ++
    put_i8 (boolToI8 r.return_row_key) ++
    put_i8 (boolToI8 r.return_affected_entity) ++
    put_i8 (boolToI8 r.return_affected_rows) ++
    (if 4 ≤ vsn then put_i64 r.partition_id else encode_vi64 r.partition_id) ++
    put_i8 (boolToI8 r.atomic_op)

theorem length_encode_batch_request (vsn : Nat)
    (r : ObTableBatchOperationRequest) :
    (r.encode vsn).length = r.len vsn := by
  simp only [ObTableBatchOperationRequest.encode,
    ObTableBatchOperationRequest.len, ObTableBatchOperationRequest.content_len,
    List.length_append, length_encode_header, length_encode_bytes_string,
    length_encode_vstring, length_encode_vi64, length_put_i8,
    length_encode_batch_operation, encoded_length_i8]
  by_cases h : 4 ≤ vsn <;> simp only [h, if_true, if_false, length_put_i64,
    length_encode_vi64, reduceIte] <;> omega

/-- Modelled from the spec: the decoding side of the varint scheme —
accumulate seven data bits per byte, least-significant group first, until a
byte without the continuation bit; error on an exhausted buffer. -/
def decodeVi64Core : List Nat → Nat → Nat → Except String (Nat × List Nat)
  | [], _, _ => .error "buffer exhausted"
  | byte :: rest, shift, acc =>
    let c := byte % 256
    if c < 128 then .ok (acc + c * 2 ^ shift, rest)
    else decodeVi64Core rest (shift + 7) (acc + (c - 128) * 2 ^ shift)

/-- Modelled from the spec: `util::decode_vi64` — the accumulated `u64`
reinterpreted as an `i64`. -/
def decode_vi64 (src : List Nat) : Except String (Int × List Nat) :=
  (decodeVi64Core src 0 0).map fun p => (toI64 p.1, p.2)

/-- Modelled from the spec: `util::decode_vi32` — the accumulated value
reinterpreted as an `i32`. -/
def decode_vi32 (src : List Nat) : Except String (Int × List Nat) :=
  (decodeVi64Core src 0 0).map fun p => (toI32 p.1, p.2)

/-- Modelled from the spec: `util::split_buf_to` — take exactly `n` bytes,
erroring when fewer remain. -/
def split_buf_to (src : List Nat) (n : Nat) :
    Except String (List Nat × List Nat) :=
  if n ≤ src.length then .ok (src.take n, src.drop n) else .error "buffer exhausted"

/-- Modelled from the spec: `util::decode_bytes` and the length-then-bytes
reads of the source — a varint length followed by that many bytes. -/
def decode_bytes (src : List Nat) : Except String (List Nat × List Nat) :=
  match decode_vi64 src with
  | .error e => .error e
  | .ok (n, rest) =>
    if n < 0 then .error "negative length"
    else split_buf_to rest n.toNat

/-- Modelled from the spec: `util::decode_vstring` — a length-prefixed
string read as its byte sequence. -/
def decode_vstring (src : List Nat) : Except String (ObString × List Nat) :=
  decode_bytes src

/-- Modelled from the spec: `util::decode_bytes_string`. -/
def decode_bytes_string (src : List Nat) : Except String (List Nat × List Nat) :=
  decode_bytes src

/-- Modelled from the spec: `decode_value` — the opaque external scalar
decoder, reading one self-delimiting scalar encoding off the buffer. -/
def decode_value (src : List Nat) : Except String (Value × List Nat) :=
  match decode_bytes src with
  | .error e => .error e
  | .ok (bs, rest) => .ok (⟨bs, []⟩, rest)

/-- Modelled from the spec (§4.1): `ObPayload::decode_base` — reads the
header written by `encode_header`: the version varint (stored into the
payload's base) and the body-length varint (read and discarded). Returns the
decoded version and the remaining buffer. -/
def decode_base (src : List Nat) : Except String (Int × List Nat) :=
  match decode_vi64 src with
  | .error e => .error e
  | .ok (ver, r1) =>
    match decode_vi64 r1 with
    | .error e => .error e
    | .ok (_len, r2) => .ok (ver, r2)

/-- Embeds `ObTableEntity::decode` helper: read `n` scalar values. -/
def decodeValues : Nat → List Nat → Except String (List Value × List Nat)
  | 0, src => .ok ([], src)
  | n + 1, src =>
    match decode_value src with
    | .error e => .error e
    | .ok (v, r) =>
      match decodeValues n r with
      | .error e => .error e
      | .ok (vs, r') => .ok (v :: vs, r')

/-- Embeds `ObTableEntity::decode` helper: read `n` name/value pairs, upserting
each into the entity (`add_attr`). -/
def decodeProps : Nat → ObTableEntity → List Nat →
    Except String (ObTableEntity × List Nat)
  | 0, e, src => .ok (e, src)
  | n + 1, e, src =>
    match decode_vstring src with
    | .error err => .error err
    | .ok (name, r) =>
      match decode_value r with
      | .error err => .error err
      | .ok (v, r') => decodeProps n (e.add_attr name v) r'

/-- Embeds `ObTableEntity::decode` (`ProtoDecoder` impl) — base header, then the
row-key count and keys (replacing the key list only when the count is
positive), then the property count and name/value pairs. -/
def ObTableEntity.decode (e : ObTableEntity) (src : List Nat) :
    Except String (ObTableEntity × List Nat) :=
  match decode_base src with
  | .error err => .error err
  | .ok (ver, r0) =>
    let e := { e with base := { e.base with version := ver } }
    match decode_vi64 r0 with
    | .error err => .error err
    | .ok (nk, r1) =>
      match (if 0 < nk then
               match decodeValues nk.toNat r1 with
               | .error err => .error err
               | .ok (vs, r) => .ok (e.set_row_key vs, r)
             else .ok (e, r1) :
             Except String (ObTableEntity × List Nat)) with
      | .error err => .error err
      | .ok (e, r2) =>
        match decode_vi64 r2 with
        | .error err => .error err
        | .ok (np, r3) =>
          if 0 < np then decodeProps np.toNat e r3 else .ok (e, r3)

/-- Embeds `codes::ResultCodes` is consumed opaquely: `ResultCodes::from_i32` keeps
the raw code, which is all the verified source observes. -/
abbrev ResultCodes := Int

/-- Embeds `ObTableResult` — the status header of every result payload. -/
structure ObTableResult where
  base : BasePayLoad
  errorno : ResultCodes
  sql_state : List Nat
  msg : List Nat
deriving DecidableEq

/-- Embeds `ObTableResult::new`. -/
def ObTableResult.new : ObTableResult := ⟨BasePayLoad.dummy, 0, [], []⟩

/-- Embeds `ObTableResult::decode` — base header, error number, sql state, message. -/
def ObTableResult.decode (t : ObTableResult) (src : List Nat) :
    Except String (ObTableResult × List Nat) :=
  match decode_base src with
  | .error err => .error err
  | .ok (ver, r0) =>
    let t := { t with base := { t.base with version := ver } }
    match decode_vi32 r0 with
    | .error err => .error err
    | .ok (errorno, r1) =>
      match decode_bytes r1 with
      | .error err => .error err
      | .ok (sql_state, r2) =>
        match decode_bytes r2 with
        | .error err => .error err
        | .ok (msg, r3) =>
          .ok ({ t with errorno := errorno, sql_state := sql_state,
                        msg := msg }, r3)

/-- Embeds `TraceId(u64, u64)` — the transport-level correlation id. -/
structure TraceId where
  uid : Nat
  seq : Nat
deriving DecidableEq

/-- Modelled from the spec: `std::net::SocketAddr`, consumed opaquely as the
responding peer's address. -/
structure SocketAddr where
  repr_bytes : ObString
deriving DecidableEq

/-- Embeds `ObTableOperationResult` — the per-operation result payload. -/
structure ObTableOperationResult where
  base : BasePayLoad
  header : ObTableResult
  operation_type : ObTableOperationType
  entity : ObTableEntity
  affected_rows : Int
  trace_id : TraceId
  peer_addr : Option SocketAddr
deriving DecidableEq

/-- Embeds `ObTableOperationResult::new`. -/
def ObTableOperationResult.new : ObTableOperationResult :=
  { base := BasePayLoad.dummy
    header := ObTableResult.new
    operation_type := .Get
    entity := ObTableEntity.new []
    affected_rows := 0
    trace_id := ⟨0, 0⟩
    peer_addr := none }

/-- Embeds `ObTableOperationResult::set_trace_id` — transport-layer stamp. -/
def ObTableOperationResult.set_trace_id (r : ObTableOperationResult)
    (t : TraceId) : ObTableOperationResult :=
  { r with trace_id := t }

/-- Embeds `ObTableOperationResult::set_peer_addr` — transport-layer stamp. -/
def ObTableOperationResult.set_peer_addr (r : ObTableOperationResult)
    (a : SocketAddr) : ObTableOperationResult :=
  { r with peer_addr := some a }

/-- Embeds `ObTableOperationResult::decode` — base header, status header, echoed
operation type (one byte through `from_i8`), entity, affected-row count. -/
def ObTableOperationResult.decode (res : ObTableOperationResult)
    (src : List Nat) : Except String (ObTableOperationResult × List Nat) :=
  match decode_base src with
  | .error err => .error err
  | .ok (ver, r0) =>
    match ObTableResult.decode res.header r0 with
    | .error err => .error err
    | .ok (hdr, r1) =>
      match split_buf_to r1 1 with
      | .error err => .error err
      | .ok (tagBytes, r2) =>
        match ObTableOperationType.from_i8 (toI8 (tagBytes.headD 0)) with
        | .error err => .error err
        | .ok (tag) =>
          match res.entity.decode r2 with
          | .error err => .error err
          | .ok (ent, r3) =>
            match decode_vi64 r3 with
            | .error err => .error err
            | .ok (affected, r4) =>
              .ok ({ res with base := { res.base with version := ver },
                              header := hdr, operation_type := tag,
                              entity := ent, affected_rows := affected }, r4)

/-- Embeds `ObTableBatchOperationResult` — the batch result payload. -/
structure ObTableBatchOperationResult where
  base : BasePayLoad
  op_results : List ObTableOperationResult
deriving DecidableEq

/-- Embeds `ObTableBatchOperationResult::new`. -/
def ObTableBatchOperationResult.new : ObTableBatchOperationResult :=
  ⟨BasePayLoad.dummy, []⟩

/-- Loop of `ObTableBatchOperationResult::decode`: read `n` nested
per-operation results in order, each from a fresh
`ObTableOperationResult::new`. -/
def decodeOpResults : Nat → List ObTableOperationResult → List Nat →
    Except String (List ObTableOperationResult × List Nat)
  | 0, acc, src => .ok (acc, src)
  | n + 1, acc, src =>
    match ObTableOperationResult.decode ObTableOperationResult.new src with
    | .error err => .error err
    | .ok (res, r) => decodeOpResults n (acc ++ [res]) r

/-- Embeds `ObTableBatchOperationResult::decode`, modelled as the source's in-place
mutation: the result triple is (outcome, payload object, remaining buffer).
A negative operation-result count is rejected before anything else is read;
the source's `assert_eq!(0, self.op_results.len())` panic is modelled as an
error. On an error inside the nested loop the remaining buffer is
approximated by the position before the count (no claim depends on it). -/
def ObTableBatchOperationResult.decode (s : ObTableBatchOperationResult)
    (src : List Nat) :
    Except String Unit × ObTableBatchOperationResult × List Nat :=
  match decode_base src with
  | .error err => (.error err, s, src)
  | .ok (ver, r1) =>
    let s := { s with base := { s.base with version := ver } }
    match decode_vi64 r1 with
    | .error err => (.error err, s, r1)
    | .ok (n, r2) =>
      if n < 0 then
        (.error ("invalid operation results num:" ++ toString n), s, r2)
      else if !s.op_results.isEmpty then
        (.error "assertion failed: op_results is not empty", s, r2)
      else
        match decodeOpResults n.toNat s.op_results r2 with
        | .error err => (.error err, s, r2)
        | .ok (results, r3) => (.ok (), { s with op_results := results }, r3)

/-! Brute-force reductions of the three batch classifier booleans, recomputed
from the full stored operation list (spec §8: "Incremental classifier state
always equals the brute-force reduction"). -/

/-- Brute force: every stored operation is a `Get`. -/
def bruteReadOnly (ops : List ObTableOperation) : Bool :=
  ops.all fun op => decide (op.op_type = ObTableOperationType.Get)

/-- Brute force: every stored operation's type equals the first one's. -/
def bruteSameType : List ObTableOperation → Bool
  | [] => true
  | first :: rest => rest.all fun op => decide (op.op_type = first.op_type)

/-- Set equality of two name lists: mutual containment. -/
def sameNameSet (a b : List ObString) : Bool :=
  (a.all fun x => decide (x ∈ b)) && (b.all fun x => decide (x ∈ a))

/-- Brute force: every stored operation's property-name set equals the
first one's. -/
def bruteSamePropertiesNames : List ObTableOperation → Bool
  | [] => true
  | first :: rest =>
    rest.all fun op =>
      sameNameSet op.entity.properties_names first.entity.properties_names

/-- Apply a sequence of `add_op` insertions. -/
def runOps (b : ObTableBatchOperation) :
    List RawObTableOperation → Option ObTableBatchOperation
  | [] => some b
  | r :: rs =>
    match b.add_op r with
    | none => none
    | some b' => runOps b' rs

theorem add_op_raw_mode {b : ObTableBatchOperation} (r : RawObTableOperation)
    (h : b.raw = true) :
    b.add_op r = some { b with raw_ops := b.raw_ops ++ [r] } := by
  unfold ObTableBatchOperation.add_op
  rw [h]
  simp

theorem new_op_type {ty : ObTableOperationType} {rks : List Value}
    {cols : Option (List ObString)} {props : Option (List Value)}
    {op : ObTableOperation} (h : ObTableOperation.new ty rks cols props = some op) :
    op.op_type = ty := by
  unfold ObTableOperation.new at h
  cases cols with
  | none => simp at h; rw [← h]
  | some c =>
    cases hm : addAttrsAux (ObTableEntity.new rks) c props 0 with
    | none => simp [hm] at h
    | some e => simp [hm] at h; rw [← h]

theorem read_only_update (ro : Bool) (ty : ObTableOperationType) :
    (if ro && decide (ty ≠ ObTableOperationType.Get) then false else ro) =
      (ro && decide (ty = ObTableOperationType.Get)) := by
  cases ro <;> by_cases hty : ty = ObTableOperationType.Get <;> simp [hty]

theorem same_type_update (st : Bool) (ops : List ObTableOperation)
    (ty : ObTableOperationType) :
    (if st && !ops.isEmpty then
        match ops.head? with
        | some first_op =>
          if first_op.get_type ≠ ty then false else st
        | none => st
      else st) =
      (match ops.head? with
       | none => st
       | some first_op => st && decide (first_op.op_type = ty)) := by
  cases ops with
  | nil => simp
  | cons f t =>
    cases st <;> by_cases hf : f.op_type = ty <;>
      simp [ObTableOperation.get_type, hf]

theorem add_op_structured {b b' : ObTableBatchOperation}
    {r : RawObTableOperation} (hraw : b.raw = false)
    (h : b.add_op r = some b') :
    ∃ op, op.op_type = r.1 ∧
      b'.ops = b.ops ++ [op] ∧
      b'.raw = false ∧
      b'.raw_ops = b.raw_ops ∧
      b'.read_only = (b.read_only && decide (r.1 = ObTableOperationType.Get)) ∧
      b'.same_type = (match b.ops.head? with
        | none => b.same_type
        | some first_op => b.same_type && decide (first_op.op_type = r.1)) := by
  obtain ⟨ty, rkn, rks, cols, props, fil, flag⟩ := r
  unfold ObTableBatchOperation.add_op at h
  rw [if_neg (by rw [hraw]; exact Bool.false_ne_true)] at h
  dsimp only at h ⊢
  cases hn : ObTableOperation.new ty rks cols props with
  | none => rw [hn] at h; simp at h
  | some op0 =>
    rw [hn] at h
    simp only [Option.map_some', Option.some.injEq] at h
    subst h
    refine ⟨(match rkn with
             | some rk_names => op0.set_row_key_names rk_names
             | none => op0), ?_, rfl, hraw, rfl, ?_, ?_⟩
    · cases rkn <;> simp [ObTableOperation.set_row_key_names, new_op_type hn]
    · exact read_only_update b.read_only ty
    · exact same_type_update b.same_type b.ops ty

theorem add_op_structured_sides {b b' : ObTableBatchOperation}
    {r : RawObTableOperation} (hraw : b.raw = false)
    (h : b.add_op r = some b') :
    b'.options = (match r.2.2.2.2.2.2 with
                  | some o => b.options ++ [o]
                  | none => b.options) ∧
    b'.filters = (match r.2.2.2.2.2.1 with
                  | some f => b.filters ++ [f]
                  | none => b.filters) := by
  obtain ⟨ty, rkn, rks, cols, props, fil, flag⟩ := r
  unfold ObTableBatchOperation.add_op at h
  rw [if_neg (by rw [hraw]; exact Bool.false_ne_true)] at h
  dsimp only at h ⊢
  cases hn : ObTableOperation.new ty rks cols props with
  | none => rw [hn] at h; simp at h
  | some op0 =>
    rw [hn] at h
    simp only [Option.map_some', Option.some.injEq] at h
    subst h
    exact ⟨rfl, rfl⟩

theorem bruteReadOnly_append (l : List ObTableOperation) (op : ObTableOperation) :
    bruteReadOnly (l ++ [op]) =
      (bruteReadOnly l && decide (op.op_type = ObTableOperationType.Get)) := by
  simp [bruteReadOnly, List.all_append]

theorem bruteSameType_append (l : List ObTableOperation) (op : ObTableOperation) :
    bruteSameType (l ++ [op]) =
      (match l.head? with
       | none => true
       | some f => bruteSameType l && decide (op.op_type = f.op_type)) := by
  cases l with
  | nil => simp [bruteSameType]
  | cons f t => simp [bruteSameType, List.all_append]

theorem runOps_classifier_inv :
    ∀ (rs : List RawObTableOperation) (b b' : ObTableBatchOperation),
      b.raw = false → b.read_only = bruteReadOnly b.ops →
      b.same_type = bruteSameType b.ops → runOps b rs = some b' →
      b'.read_only = bruteReadOnly b'.ops ∧ b'.same_type = bruteSameType b'.ops := by
  intro rs
  induction rs with
  | nil =>
    intro b b' _ h1 h2 h
    simp only [runOps, Option.some.injEq] at h
    subst h
    exact ⟨h1, h2⟩
  | cons r rs ih =>
    intro b b' hraw h1 h2 h
    simp only [runOps] at h
    cases ha : b.add_op r with
    | none => rw [ha] at h; cases h
    | some b1 =>
      rw [ha] at h
      obtain ⟨op, hop, hops, hraw1, _, hro, hst⟩ := add_op_structured hraw ha
      refine ih b1 b' hraw1 ?_ ?_ h
      · rw [hro, h1, hops, bruteReadOnly_append, hop]
      · rw [hst, hops, bruteSameType_append]
        cases hh : b.ops with
        | nil =>
          simp only [hh, List.head?_nil]
          rw [hh] at h2
          exact h2
        | cons f t =>
          rw [hh] at h2
          simp only [hh, List.head?_cons]
          rw [h2, hop]
          congr 1
          exact decide_eq_decide.mpr eq_comm

theorem runOps_mode_inv :
    ∀ (rs : List RawObTableOperation) (b b' : ObTableBatchOperation),
      (b.raw = true → b.ops = []) → (b.raw = false → b.raw_ops = []) →
      runOps b rs = some b' →
      (b'.raw = true → b'.ops = []) ∧ (b'.raw = false → b'.raw_ops = []) := by
  intro rs
  induction rs with
  | nil =>
    intro b b' h1 h2 h
    simp only [runOps, Option.some.injEq] at h
    subst h
    exact ⟨h1, h2⟩
  | cons r rs ih =>
    intro b b' h1 h2 h
    simp only [runOps] at h
    cases hraw : b.raw with
    | true =>
      rw [add_op_raw_mode r hraw] at h
      refine ih _ b' ?_ ?_ h
      · intro _; exact h1 hraw
      · intro hcontra; rw [hraw] at hcontra; cases hcontra
    | false =>
      cases ha : b.add_op r with
      | none => rw [ha] at h; cases h
      | some b1 =>
        rw [ha] at h
        obtain ⟨op, _, _, hraw1, hrops, _, _⟩ := add_op_structured hraw ha
        refine ih b1 b' ?_ ?_ h
        · intro hcontra; rw [hraw1] at hcontra; cases hcontra
        · intro _; rw [hrops]; exact h2 hraw

theorem addAttrsAux_some_isSome :
    ∀ (cols : List ObString) (e : ObTableEntity) (ps : List Value) (i : Nat),
      (addAttrsAux e cols (some ps) i).isSome = true ↔
        (cols = [] ∨ i + cols.length ≤ ps.length) := by
  intro cols
  induction cols with
  | nil => intro e ps i; simp [addAttrsAux]
  | cons c cs ih =>
    intro e ps i
    simp only [addAttrsAux]
    cases hx : ps[i]? with
    | none =>
      have hlen : ps.length ≤ i := by
        by_contra hcon
        rw [List.getElem?_eq_getElem (by omega)] at hx
        cases hx
      simp only [Option.isSome_none, List.length_cons]
      constructor
      · intro hcontra; cases hcontra
      · rintro (hcontra | hcontra)
        · cases hcontra
        · omega
    | some v =>
      have hi : i < ps.length := by
        by_contra hcon
        rw [List.getElem?_eq_none (by omega)] at hx
        cases hx
      simp only [ih, List.length_cons]
      constructor
      · rintro (hnil | hle)
        · subst hnil; right; simpa using hi
        · right; omega
      · rintro (hcontra | hle)
        · cases hcontra
        · cases cs with
          | nil => left; rfl
          | cons d ds => right; simp at hle ⊢; omega

theorem lookup_insertAttr (m : Props) (k : ObString) (v : Value) (q : ObString) :
    (m.insertAttr k v).lookup q = if k = q then some v else m.lookup q := by
  induction m with
  | nil => simp [Props.insertAttr, Props.lookup]
  | cons p rest ih =>
    obtain ⟨a, bv⟩ := p
    by_cases hak : a = k
    · subst hak
      simp only [Props.insertAttr, if_pos rfl]
      by_cases hq : a = q <;> simp [Props.lookup, hq]
    · simp only [Props.insertAttr, if_neg hak]
      by_cases hq : a = q
      · subst hq
        have hkq : ¬ k = a := fun hc => hak hc.symm
        simp [Props.lookup, hkq]
      · simp [Props.lookup, hq, ih]

theorem addAttrsAux_none_lookup :
    ∀ (cols : List ObString) (e : ObTableEntity) (i : Nat),
      ∃ e', addAttrsAux e cols none i = some e' ∧
        ∀ k, e'.properties.lookup k =
          if k ∈ cols then some Value.defaultValue else e.properties.lookup k := by
  intro cols
  induction cols with
  | nil =>
    intro e i
    exact ⟨e, rfl, by intro k; simp⟩
  | cons c cs ih =>
    intro e i
    obtain ⟨e', he', hlook⟩ := ih (e.add_attr c Value.defaultValue) (i + 1)
    refine ⟨e', by simpa [addAttrsAux] using he', ?_⟩
    intro k
    rw [hlook k]
    by_cases hcs : k ∈ cs
    · simp [hcs]
    · by_cases hck : c = k
      · subst hck
        simp [hcs, ObTableEntity.add_attr, lookup_insertAttr]
      · have hkcc : ¬ k ∈ c :: cs := by
          intro hc
          rcases List.mem_cons.mp hc with hc | hc
          · exact hck hc.symm
          · exact hcs hc
        simp only [if_neg hcs, if_neg hkcc, ObTableEntity.add_attr]
        rw [lookup_insertAttr]
        simp [hck]

/-- C1: for every `ObTableOperationRequest` and every
`ObTableBatchOperationRequest`, in any field state and under either branch of
the negotiated protocol major version (`ob_vsn_major() >= 4` writing a fixed
8-byte partition id, `< 4` a varint), the number of bytes `encode()` appends
equals `len()`, the header length plus `content_len()`; `content_len` is a
pure function of the field state (it is a Lean function of the record, so it
cannot mutate state). -/
theorem c1_request_encode_length_eq_len :
    ∀ (vsn : Nat) (req : ObTableOperationRequest)
      (breq : ObTableBatchOperationRequest),
      (req.encode vsn).length = req.len vsn ∧
      req.len vsn =
        header_len req.base.version (req.content_len vsn) + req.content_len vsn ∧
      (breq.encode vsn).length = breq.len vsn ∧
      breq.len vsn =
        header_len breq.base.version (breq.content_len vsn) +
          breq.content_len vsn :=
  fun vsn req breq =>
    ⟨length_encode_operation_request vsn req, rfl,
     length_encode_batch_request vsn breq, rfl⟩

/-- C2: evaluation of the code at the failing input. The first operation is
inserted with property names a, b; the second operation arrives with columns
a, x (same length, x not a property name of the first). Set equality demands
that `same_properties_names` become false, but `add_op`'s scan inserts a name
into the set before testing containment and `break`s only afterwards, so the
set still reaches the full length and the flag stays true. -/
theorem c2_same_properties_names_break_bug :
    ((ObTableBatchOperation.mkNew.insert [Value.defaultValue] [[97], [98]]
        [Value.defaultValue, Value.defaultValue]).bind
      fun b => b.get [Value.defaultValue] [[97], [120]]).map
      (fun b => (b.same_properties_names, bruteSamePropertiesNames b.ops)) =
      some (true, false) := by
  decide

/-- C3 counterexample: one concrete insertion sequence — two `get`s (columns
a, b then a, x) followed by an `add_table_op` of an `Insert` — after which all
three derived booleans differ from the brute-force reductions recomputed from
the stored operation list: `add_table_op` bypasses classification and the
property-name scan of C2 misfires. -/
theorem c3_counterexample :
    (((ObTableBatchOperation.mkNew.get [Value.defaultValue] [[97], [98]]).bind
        fun b => b.get [Value.defaultValue] [[97], [120]]).map
      fun b => b.add_table_op
        ⟨BasePayLoad.dummy, .Insert, ObTableEntity.new []⟩).map
      (fun b => (b.read_only, bruteReadOnly b.ops,
        b.same_type, bruteSameType b.ops,
        b.same_properties_names, bruteSamePropertiesNames b.ops)) =
      some (true, false, true, false, true, false) := by
  decide

/-- C3 amended: after any sequence of `add_op` insertions (the convenience
builders all forward to `add_op`) into a fresh structured accumulator —
`add_table_op`, which bypasses classification, excluded — `read_only` equals
the brute-force reduction (every stored operation is a `Get`) and `same_type`
equals the brute-force reduction (every stored operation's type equals the
first one's); `same_properties_names` is excluded, its divergence from the
brute-force set-equality reduction being C2's code bug. -/
theorem c3_amended_classifiers_brute_force :
    ∀ (rs : List RawObTableOperation) (b' : ObTableBatchOperation),
      runOps ObTableBatchOperation.mkNew rs = some b' →
      b'.read_only = bruteReadOnly b'.ops ∧
      b'.same_type = bruteSameType b'.ops :=
  fun rs b' h => runOps_classifier_inv rs ObTableBatchOperation.mkNew b'
    rfl rfl rfl h

/-- Witness for C3 amended at a concrete one-`get` sequence. -/
theorem c3_amended_witness :
    runOps ObTableBatchOperation.mkNew
        [(.Get, none, [], some [[97]], none, none, none)] =
      some { raw := false, raw_ops := [], table_name := [], table_id := -1,
             partition_id := -1, base := BasePayLoad.dummy,
             ops := [{ base := BasePayLoad.dummy, op_type := .Get,
                       entity := { base := BasePayLoad.dummy,
                                   row_key := ⟨[], [], .Obj⟩,
                                   properties := [([97], Value.defaultValue)] } }],
             read_only := true, same_type := true,
             same_properties_names := true, atomic_op := false,
             filters := [], options := [] } ∧
    ({ raw := false, raw_ops := [], table_name := [], table_id := -1,
       partition_id := -1, base := BasePayLoad.dummy,
       ops := [{ base := BasePayLoad.dummy, op_type := .Get,
                 entity := { base := BasePayLoad.dummy,
                             row_key := ⟨[], [], .Obj⟩,
                             properties := [([97], Value.defaultValue)] } }],
       read_only := true, same_type := true,
       same_properties_names := true, atomic_op := false,
       filters := [], options := [] } : ObTableBatchOperation).read_only =
        bruteReadOnly [{ base := BasePayLoad.dummy, op_type := .Get,
                         entity := { base := BasePayLoad.dummy,
                                     row_key := ⟨[], [], .Obj⟩,
                                     properties := [([97], Value.defaultValue)] } }] :=
  ⟨by rfl,
   (c3_amended_classifiers_brute_force
     [(.Get, none, [], some [[97]], none, none, none)] _ (by rfl)).1⟩

/-- C4 counterexample: starting from the raw constructor, one
`add_table_op` (which pushes into the structured list with no mode check)
followed by one raw `add_op` leaves both the raw and the structured operation
lists non-empty at once. -/
theorem c4_counterexample :
    ((ObTableBatchOperation.mkRaw.add_table_op
        ⟨BasePayLoad.dummy, .Insert, ObTableEntity.new []⟩).add_op
      (.Get, none, [], some [], none, none, none)).map
      (fun b => (b.raw_ops.length, b.ops.length)) = some (1, 1) := by
  decide

/-- C4 amended: for every accumulator reachable from any of the four public
constructors (all `internal_new` instances) through `add_op` and the
builders that forward to it (`get`/`insert`/…/`check_and_upsert` and its two
wrappers), the raw and structured operation lists are never simultaneously
non-empty; `add_table_op`, which appends to the structured list even on a
raw-mode accumulator, is excluded. -/
theorem c4_amended_mode_exclusive :
    ∀ (raw0 : Bool) (num : Nat) (rs : List RawObTableOperation)
      (b' : ObTableBatchOperation),
      runOps (ObTableBatchOperation.internal_new raw0 num) rs = some b' →
      b'.raw_ops = [] ∨ b'.ops = [] := by
  intro raw0 num rs b' h
  have hinv := runOps_mode_inv rs (ObTableBatchOperation.internal_new raw0 num)
    b' (fun _ => rfl) (fun _ => rfl) h
  cases hb : b'.raw with
  | true => exact Or.inr (hinv.1 hb)
  | false => exact Or.inl (hinv.2 hb)

/-- Witness for C4 amended at a concrete raw-mode one-`add_op` sequence. -/
theorem c4_amended_witness :
    runOps (ObTableBatchOperation.internal_new true 0)
        [(.Get, none, [], some [[97]], none, none, none)] =
      some { raw := true,
             raw_ops := [(.Get, none, [], some [[97]], none, none, none)],
             table_name := [], table_id := -1, partition_id := -1,
             base := BasePayLoad.dummy, ops := [], read_only := true,
             same_type := true, same_properties_names := true,
             atomic_op := false, filters := [], options := [] } ∧
    (([] : List RawObTableOperation) = [] ∨ ([] : List ObTableOperation) = []) ∧
    (({ raw := true,
        raw_ops := [(.Get, none, [], some [[97]], none, none, none)],
        table_name := [], table_id := -1, partition_id := -1,
        base := BasePayLoad.dummy, ops := [], read_only := true,
        same_type := true, same_properties_names := true,
        atomic_op := false, filters := [], options := [] } :
          ObTableBatchOperation).raw_ops = [] ∨
      ({ raw := true,
         raw_ops := [(.Get, none, [], some [[97]], none, none, none)],
         table_name := [], table_id := -1, partition_id := -1,
         base := BasePayLoad.dummy, ops := [], read_only := true,
         same_type := true, same_properties_names := true,
         atomic_op := false, filters := [], options := [] } :
           ObTableBatchOperation).ops = []) :=
  ⟨by rfl, Or.inl rfl,
   c4_amended_mode_exclusive true 0
     [(.Get, none, [], some [[97]], none, none, none)] _ (by rfl)⟩

/-- C5: `from_i8` is `Ok` for exactly the tags of the eleven non-`Invalid`
variants (each variant's tag being its declaration order 0 through 10, which
makes the mapping a bijection between 0..=10 and the non-`Invalid` variants
in tag order), `Invalid` is never returned, every tag in 0..=10 is mapped,
and every other `i8` value yields the `InvalidData` decode error. -/
theorem c5_from_i8_closed_tag_mapping :
    (∀ (i : Int) (t : ObTableOperationType),
        ObTableOperationType.from_i8 i = .ok t ↔
          (t ≠ ObTableOperationType.Invalid ∧ i = t.tag)) ∧
    (∀ t : ObTableOperationType, t ≠ ObTableOperationType.Invalid →
        0 ≤ t.tag ∧ t.tag ≤ 10) ∧
    (∀ i : Int, 0 ≤ i → i ≤ 10 →
        ∃ t, ObTableOperationType.from_i8 i = .ok t) ∧
    (∀ i : Int, i < 0 ∨ 10 < i →
        ObTableOperationType.from_i8 i =
          .error ("Invalid operation type: " ++ toString i)) := by
  refine ⟨?_, ?_, ?_, ?_⟩
  · intro i t
    constructor
    · intro h
      unfold ObTableOperationType.from_i8 at h
      by_cases e0 : i = 0
      · rw [if_pos e0] at h
        injection h with ht; subst ht; exact ⟨by decide, by rw [e0]; rfl⟩
      rw [if_neg e0] at h
      by_cases e1 : i = 1
      · rw [if_pos e1] at h
        injection h with ht; subst ht; exact ⟨by decide, by rw [e1]; rfl⟩
      rw [if_neg e1] at h
      by_cases e2 : i = 2
      · rw [if_pos e2] at h
        injection h with ht; subst ht; exact ⟨by decide, by rw [e2]; rfl⟩
      rw [if_neg e2] at h
      by_cases e3 : i = 3
      · rw [if_pos e3] at h
        injection h with ht; subst ht; exact ⟨by decide, by rw [e3]; rfl⟩
      rw [if_neg e3] at h
      by_cases e4 : i = 4
      · rw [if_pos e4] at h
        injection h with ht; subst ht; exact ⟨by decide, by rw [e4]; rfl⟩
      rw [if_neg e4] at h
      by_cases e5 : i = 5
      · rw [if_pos e5] at h
        injection h with ht; subst ht; exact ⟨by decide, by rw [e5]; rfl⟩
      rw [if_neg e5] at h
      by_cases e6 : i = 6
      · rw [if_pos e6] at h
        injection h with ht; subst ht; exact ⟨by decide, by rw [e6]; rfl⟩
      rw [if_neg e6] at h
      by_cases e7 : i = 7
      · rw [if_pos e7] at h
        injection h with ht; subst ht; exact ⟨by decide, by rw [e7]; rfl⟩
      rw [if_neg e7] at h
      by_cases e8 : i = 8
      · rw [if_pos e8] at h
        injection h with ht; subst ht; exact ⟨by decide, by rw [e8]; rfl⟩
      rw [if_neg e8] at h
      by_cases e9 : i = 9
      · rw [if_pos e9] at h
        injection h with ht; subst ht; exact ⟨by decide, by rw [e9]; rfl⟩
      rw [if_neg e9] at h
      by_cases e10 : i = 10
      · rw [if_pos e10] at h
        injection h with ht; subst ht; exact ⟨by decide, by rw [e10]; rfl⟩
      rw [if_neg e10] at h
      exact absurd h (by simp)
    · rintro ⟨hinv, hi⟩
      subst hi
      cases t
      all_goals first | exact absurd rfl hinv | rfl
  · intro t ht
    cases t <;> first | exact absurd rfl ht | exact ⟨by decide, by decide⟩
  · intro i hlo hhi
    by_cases e0 : i = 0
    · exact ⟨.Get, by rw [e0]; rfl⟩
    by_cases e1 : i = 1
    · exact ⟨.Insert, by rw [e1]; rfl⟩
    by_cases e2 : i = 2
    · exact ⟨.Del, by rw [e2]; rfl⟩
    by_cases e3 : i = 3
    · exact ⟨.Update, by rw [e3]; rfl⟩
    by_cases e4 : i = 4
    · exact ⟨.InsertOrUpdate, by rw [e4]; rfl⟩
    by_cases e5 : i = 5
    · exact ⟨.Replace, by rw [e5]; rfl⟩
    by_cases e6 : i = 6
    · exact ⟨.Increment, by rw [e6]; rfl⟩
    by_cases e7 : i = 7
    · exact ⟨.Append, by rw [e7]; rfl⟩
    by_cases e8 : i = 8
    · exact ⟨.Scan, by rw [e8]; rfl⟩
    by_cases e9 : i = 9
    · exact ⟨.TTL, by rw [e9]; rfl⟩
    by_cases e10 : i = 10
    · exact ⟨.CheckAndInsertUp, by rw [e10]; rfl⟩
    omega
  · intro i hi
    unfold ObTableOperationType.from_i8
    repeat rw [if_neg (by omega)]

/-- Witness for C5 at the concrete tags 7, 11 and -1. -/
theorem c5_witness :
    ObTableOperationType.from_i8 7 = .ok .Append ∧
    (0 ≤ ObTableOperationType.tag .Get ∧ ObTableOperationType.tag .Get ≤ 10) ∧
    ObTableOperationType.from_i8 11 =
      .error ("Invalid operation type: " ++ toString (11 : Int)) ∧
    ObTableOperationType.from_i8 (-1) =
      .error ("Invalid operation type: " ++ toString (-1 : Int)) :=
  ⟨(c5_from_i8_closed_tag_mapping.1 7 .Append).mpr (by decide),
   c5_from_i8_closed_tag_mapping.2.1 .Get (by decide),
   c5_from_i8_closed_tag_mapping.2.2.2 11 (Or.inr (by decide)),
   c5_from_i8_closed_tag_mapping.2.2.2 (-1) (Or.inl (by decide))⟩

/-- C6: whenever the batch-result decode reads a base header followed by an
operation-result count that decodes to a negative value, it returns the
protocol (`InvalidData`) error immediately, the remaining buffer is exactly
the bytes after the count (no further bytes consumed), and the `op_results`
list is exactly what it was before the call. -/
theorem c6_negative_count_aborts :
    ∀ (s : ObTableBatchOperationResult) (src : List Nat) (ver : Int)
      (r1 : List Nat) (n : Int) (r2 : List Nat),
      decode_base src = .ok (ver, r1) →
      decode_vi64 r1 = .ok (n, r2) →
      n < 0 →
      s.decode src =
        (.error ("invalid operation results num:" ++ toString n),
         { s with base := { s.base with version := ver } }, r2) ∧
      ({ s with base := { s.base with version := ver } } :
          ObTableBatchOperationResult).op_results = s.op_results := by
  intro s src ver r1 n r2 h1 h2 h3
  unfold ObTableBatchOperationResult.decode
  simp only [h1, h2]
  rw [if_pos h3]
  exact ⟨rfl, trivial⟩

/-- Witness for C6 at a concrete buffer whose encoded count is -1. -/
theorem c6_witness :
    decode_base ([1, 0] ++ encode_vi64 (-1)) = .ok (1, encode_vi64 (-1)) ∧
    decode_vi64 (encode_vi64 (-1)) = .ok (-1, []) ∧
    ((-1 : Int) < 0) ∧
    (ObTableBatchOperationResult.new.decode ([1, 0] ++ encode_vi64 (-1)) =
        (.error ("invalid operation results num:" ++ toString (-1 : Int)),
         { ObTableBatchOperationResult.new with
             base := { ObTableBatchOperationResult.new.base with
                         version := 1 } }, []) ∧
      ({ ObTableBatchOperationResult.new with
           base := { ObTableBatchOperationResult.new.base with
                       version := 1 } } :
          ObTableBatchOperationResult).op_results =
        ObTableBatchOperationResult.new.op_results) :=
  ⟨by rfl, by rfl, by decide,
   c6_negative_count_aborts ObTableBatchOperationResult.new
     ([1, 0] ++ encode_vi64 (-1)) 1 (encode_vi64 (-1)) (-1) []
     (by rfl) (by rfl) (by decide)⟩

/-- C7: on a structured accumulator, `check_and_upsert_if_exists` appends an
option flag with `check_exists = true` (and `check_and_execute = true`),
`check_and_upsert_if_not_exists` appends one with `check_exists = false`, and
`generate_tablet_ops` sets each emitted tablet single operation's
`check_not_exists` policy flag to the negation of the corresponding
accumulated triple's `check_exists`. -/
theorem c7_check_exists_policy_inversion :
    ∀ (b : ObTableBatchOperation) (rkn : List ObString) (rks : List Value)
      (cols : List ObString) (props : List Value) (fil : ObString)
      (b1 b2 c : ObTableBatchOperation),
      b.raw = false →
      b.check_and_upsert_if_exists rkn rks cols props fil = some b1 →
      b.check_and_upsert_if_not_exists rkn rks cols props fil = some b2 →
      b1.options = b.options ++ [⟨true, true⟩] ∧
      b2.options = b.options ++ [⟨true, false⟩] ∧
      (c.generate_tablet_ops.single_ops.map fun s => s.check_not_exists) =
        (((c.ops.zip c.filters).zip c.options).map
          fun tri => !tri.2.check_exists) := by
  intro b rkn rks cols props fil b1 b2 c hraw h1 h2
  have h1' : b.add_op (.CheckAndInsertUp, some rkn, rks, some cols, some props,
      some fil, some ⟨true, true⟩) = some b1 := h1
  have h2' : b.add_op (.CheckAndInsertUp, some rkn, rks, some cols, some props,
      some fil, some ⟨true, false⟩) = some b2 := h2
  refine ⟨?_, ?_, ?_⟩
  · simpa using (add_op_structured_sides hraw h1').1
  · simpa using (add_op_structured_sides hraw h2').1
  · unfold ObTableBatchOperation.generate_tablet_ops
      ObTableTabletOp.internal_new
    dsimp only
    rw [List.map_map]
    rfl

/-- Witness for C7 at a concrete empty-keyed compound upsert. -/
theorem c7_witness :
    ObTableBatchOperation.mkNew.raw = false ∧
    ObTableBatchOperation.mkNew.check_and_upsert_if_exists [] [] [] [] [] =
      some { raw := false, raw_ops := [], table_name := [], table_id := -1,
             partition_id := -1, base := BasePayLoad.dummy,
             ops := [{ base := BasePayLoad.dummy, op_type := .CheckAndInsertUp,
                       entity := { base := BasePayLoad.dummy,
                                   row_key := ⟨[], [], .Obj⟩,
                                   properties := [] } }],
             read_only := false, same_type := true,
             same_properties_names := true, atomic_op := false,
             filters := [[]], options := [⟨true, true⟩] } ∧
    ObTableBatchOperation.mkNew.check_and_upsert_if_not_exists [] [] [] [] [] =
      some { raw := false, raw_ops := [], table_name := [], table_id := -1,
             partition_id := -1, base := BasePayLoad.dummy,
             ops := [{ base := BasePayLoad.dummy, op_type := .CheckAndInsertUp,
                       entity := { base := BasePayLoad.dummy,
                                   row_key := ⟨[], [], .Obj⟩,
                                   properties := [] } }],
             read_only := false, same_type := true,
             same_properties_names := true, atomic_op := false,
             filters := [[]], options := [⟨true, false⟩] } ∧
    ({ raw := false, raw_ops := [], table_name := [], table_id := -1,
       partition_id := -1, base := BasePayLoad.dummy,
       ops := [{ base := BasePayLoad.dummy, op_type := .CheckAndInsertUp,
                 entity := { base := BasePayLoad.dummy,
                             row_key := ⟨[], [], .Obj⟩,
                             properties := [] } }],
       read_only := false, same_type := true,
       same_properties_names := true, atomic_op := false,
       filters := [[]], options := [⟨true, true⟩] } :
        ObTableBatchOperation).generate_tablet_ops.single_ops.map
          (fun s => s.check_not_exists) = [false] := by
  refine ⟨rfl, by rfl, by rfl, ?_⟩
  have h := (c7_check_exists_policy_inversion ObTableBatchOperation.mkNew
    [] [] [] [] [] _ _
    { raw := false, raw_ops := [], table_name := [], table_id := -1,
      partition_id := -1, base := BasePayLoad.dummy,
      ops := [{ base := BasePayLoad.dummy, op_type := .CheckAndInsertUp,
                entity := { base := BasePayLoad.dummy,
                            row_key := ⟨[], [], .Obj⟩,
                            properties := [] } }],
      read_only := false, same_type := true,
      same_properties_names := true, atomic_op := false,
      filters := [[]], options := [⟨true, true⟩] }
    rfl (by rfl) (by rfl)).2.2
  rw [h]
  rfl

/-- C8: for every `ObTableOperationResult` and every input buffer on which
decode succeeds, the decoded result carries the same `trace_id` and
`peer_addr` values as before the call — decode touches only the base header,
the status header, the echoed operation type, the entity and the
affected-row count; the transport stamps come only from `set_trace_id` /
`set_peer_addr`. -/
theorem c8_decode_preserves_transport_fields :
    ∀ (res : ObTableOperationResult) (src : List Nat)
      (res' : ObTableOperationResult) (rest : List Nat),
      res.decode src = .ok (res', rest) →
      res'.trace_id = res.trace_id ∧ res'.peer_addr = res.peer_addr := by
  intro res src res' rest h
  unfold ObTableOperationResult.decode at h
  repeat' split at h
  all_goals cases h
  exact ⟨rfl, rfl⟩

/-- Witness for C8 at a concrete successfully decoding buffer. -/
theorem c8_witness :
    ObTableOperationResult.new.decode [1, 0, 1, 0, 0, 0, 0, 0, 1, 0, 0, 0, 0] =
      .ok (ObTableOperationResult.new, []) ∧
    (ObTableOperationResult.new.trace_id = ObTableOperationResult.new.trace_id ∧
      ObTableOperationResult.new.peer_addr =
        ObTableOperationResult.new.peer_addr) :=
  ⟨by rfl,
   c8_decode_preserves_transport_fields ObTableOperationResult.new
     [1, 0, 1, 0, 0, 0, 0, 0, 1, 0, 0, 0, 0] ObTableOperationResult.new []
     (by rfl)⟩

/-- C9 (implicit): `ObTableOperation::new` is total exactly when, with both a
columns list and a properties list supplied, the properties list is at least
as long as the columns list (`props[i]` panics — modelled as `none` — when it
is shorter); when `properties` is `None` the constructor succeeds and pairs
every named column with the default `Value`; with no columns list it always
succeeds. -/
theorem c9_new_properties_precondition :
    (∀ (ty : ObTableOperationType) (rks : List Value) (cols : List ObString)
        (ps : List Value),
        (ObTableOperation.new ty rks (some cols) (some ps)).isSome = true ↔
          cols.length ≤ ps.length) ∧
    (∀ (ty : ObTableOperationType) (rks : List Value) (cols : List ObString)
        (op : ObTableOperation),
        ObTableOperation.new ty rks (some cols) none = some op →
        ∀ k, k ∈ cols →
          op.entity.properties.lookup k = some Value.defaultValue) ∧
    (∀ (ty : ObTableOperationType) (rks : List Value) (cols : List ObString),
        (ObTableOperation.new ty rks (some cols) none).isSome = true) ∧
    (∀ (ty : ObTableOperationType) (rks : List Value)
        (props : Option (List Value)),
        (ObTableOperation.new ty rks none props).isSome = true) := by
  refine ⟨?_, ?_, ?_, ?_⟩
  · intro ty rks cols ps
    unfold ObTableOperation.new
    dsimp only
    rw [Option.isSome_map']
    rw [addAttrsAux_some_isSome]
    constructor
    · rintro (hnil | hle)
      · subst hnil; simp
      · omega
    · intro hle
      right
      omega
  · intro ty rks cols op h k hk
    obtain ⟨e', he', hlook⟩ := addAttrsAux_none_lookup cols (ObTableEntity.new rks) 0
    unfold ObTableOperation.new at h
    dsimp only at h
    rw [he'] at h
    simp only [Option.map_some', Option.some.injEq] at h
    rw [← h]
    dsimp only
    rw [hlook k, if_pos hk]
  · intro ty rks cols
    obtain ⟨e', he', -⟩ := addAttrsAux_none_lookup cols (ObTableEntity.new rks) 0
    unfold ObTableOperation.new
    dsimp only
    rw [he']
    rfl
  · intro ty rks props
    rfl

/-- Witness for C9: a two-column, one-property constructor call fails, while
the one-column no-properties call pairs the column with the default value. -/
theorem c9_witness :
    ((ObTableOperation.new .Insert [] (some [[97], [98]])
        (some [Value.defaultValue])).isSome = true ↔
      ([[97], [98]] : List ObString).length ≤
        ([Value.defaultValue] : List Value).length) ∧
    (([97] : ObString) ∈ ([[97]] : List ObString) →
      ∀ (op : ObTableOperation),
        ObTableOperation.new .Get [] (some [[97]]) none = some op →
        op.entity.properties.lookup [97] = some Value.defaultValue) :=
  ⟨c9_new_properties_precondition.1 .Insert [] [[97], [98]] [Value.defaultValue],
   fun hk op hop =>
     c9_new_properties_precondition.2.1 .Get [] [[97]] op hop [97] hk⟩

/-- C10 (implicit): a raw-mode batch accumulator holding `n > 0` raw tuples
(and hence an empty structured list) encodes as the empty batch: `encode`
writes the header, an operation count of 0 and the three classifier bytes,
no raw-tuple content; `content_len` sizes exactly that; yet `ops_len` reports
`n`. -/
theorem c10_raw_tuples_never_encoded :
    ∀ (b : ObTableBatchOperation) (n : Nat),
      b.ops = [] → b.raw_ops.length = n → 0 < n →
      b.encode = encode_header b.base.version b.content_len ++
          encode_vi64 0 ++ put_i8 (boolToI8 b.read_only) ++
          put_i8 (boolToI8 b.same_type) ++
          put_i8 (boolToI8 b.same_properties_names) ∧
      b.content_len = 3 + encoded_length_vi64 0 ∧
      b.ops_len = n := by
  intro b n hops hn hpos
  refine ⟨?_, ?_, ?_⟩
  · unfold ObTableBatchOperation.encode
    rw [hops]
    simp
  · unfold ObTableBatchOperation.content_len
    rw [hops]
    simp [Nat.add_comm]
  · unfold ObTableBatchOperation.ops_len
    cases hro : b.raw_ops with
    | nil => rw [hro] at hn; simp at hn; omega
    | cons x t => rw [hro] at hn; simp [← hn]

/-- Witness for C10 at a concrete raw accumulator holding one tuple. -/
theorem c10_witness :
    ({ raw := true,
       raw_ops := [(.Get, none, [], some [[97]], none, none, none)],
       table_name := [], table_id := -1, partition_id := -1,
       base := BasePayLoad.dummy, ops := [], read_only := true,
       same_type := true, same_properties_names := true, atomic_op := false,
       filters := [], options := [] } : ObTableBatchOperation).ops = [] ∧
    ({ raw := true,
       raw_ops := [(.Get, none, [], some [[97]], none, none, none)],
       table_name := [], table_id := -1, partition_id := -1,
       base := BasePayLoad.dummy, ops := [], read_only := true,
       same_type := true, same_properties_names := true, atomic_op := false,
       filters := [], options := [] } :
        ObTableBatchOperation).raw_ops.length = 1 ∧
    0 < 1 ∧
    ({ raw := true,
       raw_ops := [(.Get, none, [], some [[97]], none, none, none)],
       table_name := [], table_id := -1, partition_id := -1,
       base := BasePayLoad.dummy, ops := [], read_only := true,
       same_type := true, same_properties_names := true, atomic_op := false,
       filters := [], options := [] } : ObTableBatchOperation).ops_len = 1 :=
  ⟨rfl, rfl, by decide,
   (c10_raw_tuples_never_encoded
     { raw := true,
       raw_ops := [(.Get, none, [], some [[97]], none, none, none)],
       table_name := [], table_id := -1, partition_id := -1,
       base := BasePayLoad.dummy, ops := [], read_only := true,
       same_type := true, same_properties_names := true, atomic_op := false,
       filters := [], options := [] } 1 rfl rfl (by decide)).2.2⟩

end Payloads
